import Mathlib

/-!
A shallow embedding of the TCP connection engine in `src/tcp.rs`
(kenanfurkankaptan/tcpRust).  Machine integers (`u32`, `u16`) are modelled
as `Nat` with explicit reduction modulo 2^32 where the source uses wrapping
arithmetic; wall-clock instants and the smoothed round-trip estimator
(`f64` seconds in the source) are modelled as exact rationals; fallible or
panicking code paths return `Option` (`none` = panic / index-out-of-range /
debug-overflow).  The NIC is modelled by returning the emitted segments.
-/

namespace TcpRust

/-- 2^32, the modulus of the 32-bit sequence-number space. -/
def M32 : ℕ := 4294967296

/-- 2^31, the half-space constant of RFC 1323 comparison. -/
def H32 : ℕ := 2147483648

/-- `u32::wrapping_add`. -/
def wadd (a b : ℕ) : ℕ := (a + b) % M32

/-- `u32::wrapping_sub`. -/
def wsub (a b : ℕ) : ℕ := (a % M32 + M32 - b % M32) % M32

/-- `fn wrapping_lt(lhs: u32, rhs: u32) -> bool { lhs.wrapping_sub(rhs) > (1 << 31) }`. -/
def wrapping_lt (lhs rhs : ℕ) : Bool := decide (wsub lhs rhs > H32)

/-- `fn is_between_wrapped(start: u32, x: u32, end: u32) -> bool`. -/
def is_between_wrapped (s x e : ℕ) : Bool := wrapping_lt s x && wrapping_lt x e

/-- `enum State` of tcp.rs. -/
inductive State where
  | Listen | SynSent | SynRcvd | Estab | FinWait1 | FinWait2
  | CloseWait | LastAck | Closing | TimeWait | Closed
deriving DecidableEq, Repr

/-- `struct SendSequenceSpace` (RFC 793 S3.2 Figure 4). -/
structure SendSequenceSpace where
  una : ℕ
  nxt : ℕ
  wnd : ℕ
  up : Bool
  wl1 : ℕ
  wl2 : ℕ
  iss : ℕ
deriving DecidableEq, Repr

/-- `struct RecvSequenceSpace` (RFC 793 S3.2 Figure 5). -/
structure RecvSequenceSpace where
  nxt : ℕ
  wnd : ℕ
  up : Bool
  irs : ℕ
deriving DecidableEq, Repr

/-- The outbound `etherparse::TcpHeader` template cached in the connection:
the fields tcp.rs reads or writes (control flags and the two sequence fields). -/
structure TcpHeader where
  syn : Bool
  ack : Bool
  fin : Bool
  rst : Bool
  sequence_number : ℕ
  acknowledgment_number : ℕ
deriving DecidableEq, Repr

/-- `struct Timers`: `send_times: BTreeMap<u32, Instant>` is modelled as an
association list sorted by key ascending (the BTreeMap iteration order), and
`srtt: f64` (seconds) as an exact rational. -/
structure Timers where
  send_times : List (ℕ × ℚ)
  srtt : ℚ
deriving DecidableEq, Repr

/-- `struct Connection` of tcp.rs (the cached outbound IPv4 header carries no
state the engine reads back, so it is omitted). -/
structure Connection where
  state : State
  send : SendSequenceSpace
  recv : RecvSequenceSpace
  tcp : TcpHeader
  timers : Timers
  incoming : List ℕ
  unacked : List ℕ
  closed : Bool
  closed_at : Option ℕ
deriving DecidableEq, Repr

/-- An inbound segment as tcp.rs sees it: the parsed TCP header fields it
reads plus the payload bytes. -/
structure InSegment where
  seq : ℕ
  ack : Bool
  ackn : ℕ
  syn : Bool
  fin : Bool
  wnd : ℕ
  payload : List ℕ
deriving DecidableEq, Repr

/-- An outbound segment as handed to the NIC: the header fields tcp.rs sets
plus the payload bytes actually copied. -/
structure OutSegment where
  seq : ℕ
  ackn : ℕ
  ack : Bool
  syn : Bool
  fin : Bool
  payload : List ℕ
deriving DecidableEq, Repr

/-- `BTreeMap::insert` on the sorted association list (replaces on equal key). -/
def stInsert (m : List (ℕ × ℚ)) (k : ℕ) (v : ℚ) : List (ℕ × ℚ) :=
  match m with
  | [] => [(k, v)]
  | (k1, v1) :: rest =>
    if k < k1 then (k, v) :: (k1, v1) :: rest
    else if k = k1 then (k, v) :: rest
    else (k1, v1) :: stInsert rest k v

/-- `send_times.range(k..).next()`: the entry with the smallest key `≥ k`. -/
def stFirstAtOrAfter (m : List (ℕ × ℚ)) (k : ℕ) : Option (ℕ × ℚ) :=
  match m with
  | [] => none
  | (k1, v1) :: rest => if k ≤ k1 then some (k1, v1) else stFirstAtOrAfter rest k

/-- `send_times.lookup`. -/
def stLookup (m : List (ℕ × ℚ)) (k : ℕ) : Option ℚ :=
  match m with
  | [] => none
  | (k1, v1) :: rest => if k = k1 then some v1 else stLookup rest k

/-- The `send_times.retain` scan of `Connection::on_packet`: entries with
`is_between_wrapped(snd.una, seq, ackn)` are dropped and each drop folds its
elapsed time into `srtt ← 0.8·srtt + (1 − 0.8)·(now − sent)`, visiting keys in
ascending (BTreeMap) order.  Returns the retained map and the final srtt. -/
def stRetainRtt (m : List (ℕ × ℚ)) (una ackn : ℕ) (now : ℚ) (srtt : ℚ) :
    List (ℕ × ℚ) × ℚ :=
  match m with
  | [] => ([], srtt)
  | (seq, sent) :: rest =>
    if is_between_wrapped una seq ackn then
      stRetainRtt rest una ackn now (4/5 * srtt + (1 - 4/5) * (now - sent))
    else
      let r := stRetainRtt rest una ackn now srtt
      ((seq, sent) :: r.1, r.2)

/-- `Connection::write(nic, seq, limit)`: emits one segment.  `none` models the
slice-index panic when the computed offset exceeds `|unacked|`; otherwise the
mutated connection and the emitted segment.  `1460` is the MTU clip (1500-byte
buffer minus the 20+20 byte headers).  Note every mutation (flag clearing,
`snd.nxt` advance, `send_times` stamp) happens before `nic.send` in the source,
so the post-state is the same whether or not the NIC transmit succeeds. -/
def Connection.write (c : Connection) (now : ℚ) (seq : ℕ) (limit : ℕ) :
    Option (Connection × OutSegment) :=
  let offset0 := wsub seq c.send.una
  let ol :=
    match c.closed_at with
    | some ca => if seq = wadd ca 1 then ((0 : ℕ), (0 : ℕ)) else (offset0, limit)
    | none => (offset0, limit)
  if ol.1 ≤ c.unacked.length then
    let avail := c.unacked.drop ol.1
    let payload_bytes := min (min ol.2 avail.length) 1460
    let payload := avail.take payload_bytes
    let next_seq0 := wadd seq payload_bytes
    let next_seq1 := if c.tcp.syn then wadd next_seq0 1 else next_seq0
    let next_seq := if c.tcp.fin then wadd next_seq1 1 else next_seq1
    let newNxt := if wrapping_lt c.send.nxt next_seq then next_seq
                  else c.send.nxt
    some ({ c with
            tcp := { c.tcp with
                     sequence_number := seq
                     acknowledgment_number := c.recv.nxt
                     syn := false
                     fin := false }
            send := { c.send with nxt := newNxt }
            timers := { c.timers with
                        send_times := stInsert c.timers.send_times seq now } },
      { seq := seq, ackn := c.recv.nxt, ack := c.tcp.ack,
        syn := c.tcp.syn, fin := c.tcp.fin, payload := payload })
  else none

/-- The `waited_for` computation of `Connection::on_tick`: elapsed time of the
earliest `send_times` entry at or after `snd.una`. -/
def waitedFor (c : Connection) (now : ℚ) : Option ℚ :=
  (stFirstAtOrAfter c.timers.send_times c.send.una).map (fun t => now - t.2)

/-- The retransmit gate of `Connection::on_tick`:
`waited_for > Duration::from_secs(1) && waited_for.as_secs_f64() > 1.5 * srtt`. -/
def shouldRetransmit (c : Connection) (now : ℚ) : Bool :=
  match waitedFor c now with
  | some w => decide (w > 1) && decide (w > 3/2 * c.timers.srtt)
  | none => false

/-- The `should_retransmit` branch of `Connection::on_tick`:
`resend = min(|unacked|, snd.wnd)`; if `resend < snd.wnd && closed`, latch the
FIN flag and set `closed_at = snd.una + |unacked|` (note: without checking
whether `closed_at` was already set); if `resend == 0` return, else
`write(snd.una, resend)`. -/
def retransmitStep (c : Connection) (now : ℚ) :
    Option (Connection × List OutSegment) :=
  let resend := min c.unacked.length c.send.wnd
  let c :=
    if resend < c.send.wnd && c.closed then
      { c with tcp := { c.tcp with fin := true },
               closed_at := some (wadd c.send.una c.unacked.length) }
    else c
  if resend = 0 then some (c, [])
  else (c.write now c.send.una resend).map (fun p => (p.1, [p.2]))

/-- The new-data branch of `Connection::on_tick`: return if nothing unsent and
`closed_at` already set; `allowed = snd.wnd - nunacked` (`none` models the u32
underflow, debug build); `send = min(nunsent, allowed)`; if `send < allowed &&
closed && closed_at.is_none()`, latch the FIN and set
`closed_at = snd.una + |unacked|`; if `send == 0` return, else
`write(snd.nxt, send)`. -/
def transmitStep (c : Connection) (now : ℚ) (nunacked nunsent : ℕ) :
    Option (Connection × List OutSegment) :=
  if nunsent = 0 && c.closed_at.isSome then some (c, [])
  else if c.send.wnd < nunacked then none
  else
    let allowed := c.send.wnd - nunacked
    if allowed = 0 then some (c, [])
    else
      let snd := min nunsent allowed
      let c :=
        if snd < allowed && c.closed && c.closed_at.isNone then
          { c with tcp := { c.tcp with fin := true },
                   closed_at := some (wadd c.send.una c.unacked.length) }
        else c
      if snd = 0 then some (c, [])
      else (c.write now c.send.nxt snd).map (fun p => (p.1, [p.2]))

/-- `Connection::on_tick(nic)`.  Early return in FinWait2 / TimeWait / Closed;
`nunacked = (closed_at ? closed_at : snd.nxt) - snd.una` (wrap-safe) and
`nunsent = |unacked| - nunacked`, whose u32 underflow (debug-build panic) is
modelled as `none`; then the retransmit or new-data branch. -/
def Connection.on_tick (c : Connection) (now : ℚ) :
    Option (Connection × List OutSegment) :=
  match c.state with
  | .FinWait2 | .TimeWait | .Closed => some (c, [])
  | _ =>
    if c.unacked.length < wsub (c.closed_at.getD c.send.nxt) c.send.una
    then none
    else
      if shouldRetransmit c now then retransmitStep c now
      else
        transmitStep c now (wsub (c.closed_at.getD c.send.nxt) c.send.una)
          (c.unacked.length - wsub (c.closed_at.getD c.send.nxt) c.send.una)

/-- The segment-acceptability check at the top of `Connection::on_packet`
(`okay`): four cases on `slen` (payload length + 1 per FIN/SYN flag) and
`rcv.wnd`, against `wend = rcv.nxt + rcv.wnd`. -/
def segment_okay (c : Connection) (seg : InSegment) : Bool :=
  let slen := seg.payload.length + (if seg.fin then 1 else 0)
              + (if seg.syn then 1 else 0)
  let wend := wadd c.recv.nxt c.recv.wnd
  if slen = 0 then
    if c.recv.wnd = 0 then decide (seg.seq = c.recv.nxt)
    else is_between_wrapped (wsub c.recv.nxt 1) seg.seq wend
  else
    if c.recv.wnd = 0 then false
    else is_between_wrapped (wsub c.recv.nxt 1) seg.seq wend
      || is_between_wrapped (wsub c.recv.nxt 1) (wadd seg.seq (slen - 1)) wend

/-- The `State::SynRcvd` arm of the ACK processing in `Connection::on_packet`:
an ACK inside `(snd.una − 1, snd.nxt + 1)` moves the connection to Estab. -/
def synRcvdAckStep (c : Connection) (ackn : ℕ) : Connection :=
  match c.state with
  | .SynRcvd =>
    if is_between_wrapped (wsub c.send.una 1) ackn (wadd c.send.nxt 1)
    then { c with state := .Estab } else c
  | _ => c

/-- The `Estab | FinWait1 | FinWait2` arm of the ACK processing in
`Connection::on_packet`: drain `unacked`, prune `send_times` updating `srtt`,
and advance `snd.una`. -/
def estabAckStep (c : Connection) (now : ℚ) (ackn : ℕ) : Connection :=
  match c.state with
  | .Estab | .FinWait1 | .FinWait2 =>
    if is_between_wrapped c.send.una ackn (wadd c.send.nxt 1) then
      let c :=
        if c.unacked = [] then c
        else
          let data_start := if c.send.una = c.send.iss
                            then wadd c.send.una 1 else c.send.una
          let acked_data_end := min (wsub ackn data_start) c.unacked.length
          let r := stRetainRtt c.timers.send_times c.send.una ackn now
                     c.timers.srtt
          { c with unacked := c.unacked.drop acked_data_end,
                   timers := { send_times := r.1, srtt := r.2 } }
      { c with send := { c.send with una := ackn } }
    else c
  | _ => c

/-- The post-ACK FIN-acknowledgment transitions of `Connection::on_packet`:
when `closed_at` is set and `snd.una == closed_at + 1`, FinWait1 → FinWait2,
Closing → TimeWait, LastAck → Closed. -/
def finAckStep (c : Connection) : Connection :=
  match c.state, c.closed_at with
  | .FinWait1, some ca =>
    if c.send.una = wadd ca 1 then { c with state := .FinWait2 } else c
  | .Closing, some ca =>
    if c.send.una = wadd ca 1 then { c with state := .TimeWait } else c
  | .LastAck, some ca =>
    if c.send.una = wadd ca 1 then { c with state := .Closed } else c
  | _, _ => c

/-- The data-receipt block of `Connection::on_packet` (`!data.is_empty()` and
State ∈ {Estab, FinWait1, FinWait2}): append the unread suffix to `incoming`,
advance `rcv.nxt`, emit a bare ACK.  `none` models the
`assert_eq!(unread_data_at, data.len() + 1)` panic. -/
def dataStep (c : Connection) (now : ℚ) (seg : InSegment) :
    Option (Connection × List OutSegment) :=
  if seg.payload = [] then some (c, [])
  else
    match c.state with
    | .Estab | .FinWait1 | .FinWait2 =>
      let unread0 := wsub c.recv.nxt seg.seq
      if unread0 > seg.payload.length ∧ unread0 ≠ seg.payload.length + 1
      then none
      else
        let unread := if unread0 > seg.payload.length then 0 else unread0
        let c := { c with incoming := c.incoming ++ seg.payload.drop unread,
                          recv := { c.recv with
                            nxt := wadd seg.seq seg.payload.length } }
        (c.write now c.send.nxt 0).map (fun p => (p.1, [p.2]))
    | _ => some (c, [])

/-- The FIN block at the end of `Connection::on_packet`: advance `rcv.nxt`
past the FIN, emit a bare ACK, transition FinWait2 → TimeWait,
FinWait1 → Closing, Estab → TimeWait; every other state hits
`unimplemented!()` (`none`). -/
def finStep (c : Connection) (now : ℚ) (hasFin : Bool) :
    Option (Connection × List OutSegment) :=
  if !hasFin then some (c, [])
  else
    match c.state with
    | .FinWait2 =>
      let c := { c with recv := { c.recv with nxt := wadd c.recv.nxt 1 } }
      (c.write now c.send.nxt 0).map (fun p => ({ p.1 with state := .TimeWait }, [p.2]))
    | .FinWait1 =>
      let c := { c with recv := { c.recv with nxt := wadd c.recv.nxt 1 } }
      (c.write now c.send.nxt 0).map (fun p => ({ p.1 with state := .Closing }, [p.2]))
    | .Estab =>
      let c := { c with recv := { c.recv with nxt := wadd c.recv.nxt 1 } }
      (c.write now c.send.nxt 0).map (fun p => ({ p.1 with state := .TimeWait }, [p.2]))
    | _ => none

/-- `Connection::on_packet(nic, ip_h, tcp_h, data)`.  `none` models a panic
(`assert!`, `assert_eq!`, `unimplemented!()`, slice index); otherwise the
mutated connection and the segments handed to the NIC in order. -/
def Connection.on_packet (c : Connection) (now : ℚ) (seg : InSegment) :
    Option (Connection × List OutSegment) :=
  if !segment_okay c seg then
    (c.write now c.send.nxt 0).map (fun p => (p.1, [p.2]))
  else if !seg.ack then
    if seg.syn then
      if seg.payload = []
      then some ({ c with recv := { c.recv with nxt := wadd seg.seq 1 } }, [])
      else none
    else some (c, [])
  else
    let c := synRcvdAckStep c seg.ackn
    let c := estabAckStep c now seg.ackn
    let c := finAckStep c
    (dataStep c now seg).bind (fun q =>
      (finStep q.1 now seg.fin).map (fun r => (r.1, q.2 ++ r.2)))

/-- `Connection::accept(nic, ip_h, tcp_h, data)`: passive open on a SYN with
`iss = 0`, `wnd = 1024`, `srtt` initialised to 60 s, SYN+ACK emitted via
`write`.  `none` covers both the non-SYN `Ok(None)` return and a write panic. -/
def Connection.accept (now : ℚ) (seg : InSegment) :
    Option (Connection × OutSegment) :=
  if !seg.syn then none
  else
    let c : Connection :=
      { state := .SynRcvd
        send := { iss := 0, una := 0, nxt := 0, wnd := 1024, up := false,
                  wl1 := 0, wl2 := 0 }
        recv := { irs := seg.seq, nxt := wadd seg.seq 1, wnd := seg.wnd,
                  up := false }
        tcp := { syn := true, ack := true, fin := false, rst := false,
                 sequence_number := 0, acknowledgment_number := 0 }
        timers := { send_times := [], srtt := 60 }
        incoming := [], unacked := [], closed := false, closed_at := none }
    c.write now c.send.nxt 0

/-- `Connection::connect(nic, ip_h, tcp_h, data)`: the active-open
constructor.  Identical to `accept` except the emitted SYN carries no ACK
flag (`c.tcp.ack = false`).  Note the source sets `state: State::SynRcvd`
here too. -/
def Connection.connect (now : ℚ) (seg : InSegment) :
    Option (Connection × OutSegment) :=
  if !seg.syn then none
  else
    let c : Connection :=
      { state := .SynRcvd
        send := { iss := 0, una := 0, nxt := 0, wnd := 1024, up := false,
                  wl1 := 0, wl2 := 0 }
        recv := { irs := seg.seq, nxt := wadd seg.seq 1, wnd := seg.wnd,
                  up := false }
        tcp := { syn := true, ack := false, fin := false, rst := false,
                 sequence_number := 0, acknowledgment_number := 0 }
        timers := { send_times := [], srtt := 60 }
        incoming := [], unacked := [], closed := false, closed_at := none }
    c.write now c.send.nxt 0

/-- `Connection::close()`: sets `closed = true` first (the mutation persists
even on the error return), then transitions the state; the Bool is `true` for
`Ok(())` and `false` for the `NotConnected` error. -/
def Connection.close (c : Connection) : Connection × Bool :=
  let c := { c with closed := true }
  match c.state with
  | .SynRcvd | .Estab => ({ c with state := .FinWait1 }, true)
  | .CloseWait => ({ c with state := .LastAck }, true)
  | .FinWait1 | .FinWait2 | .Closing | .LastAck => (c, true)
  | _ => (c, false)

/-- Modelled from the spec: the application-facing byte-level enqueue into
`unacked` (append).  The application I/O handles live outside `src/tcp.rs`
("byte-level enqueue into `unacked` (append)", spec section 6). -/
def Connection.enqueue (c : Connection) (bs : List ℕ) : Connection :=
  { c with unacked := c.unacked ++ bs }

/-- One externally-driven operation on a connection. -/
inductive Op where
  | tick (now : ℚ)
  | packet (now : ℚ) (seg : InSegment)
  | close
  | enqueue (bs : List ℕ)
deriving Repr

/-- One step of the event loop. -/
def Connection.step (c : Connection) (op : Op) :
    Option (Connection × List OutSegment) :=
  match op with
  | .tick now => c.on_tick now
  | .packet now seg => c.on_packet now seg
  | .close => some ((c.close).1, [])
  | .enqueue bs => some (c.enqueue bs, [])

/-- Run a list of operations, collecting every segment handed to the NIC. -/
def Connection.run (c : Connection) : List Op → Option (Connection × List OutSegment)
  | [] => some (c, [])
  | op :: ops =>
    (c.step op).bind (fun p =>
      (p.1.run ops).map (fun q => (q.1, p.2 ++ q.2)))

/-- `Connection::write` followed by the `nic.send(&buf[..payload_ends_at])?`
transmit: the NIC outcome is external, and because every connection mutation
in `write` precedes `nic.send`, the post-state is identical whether the send
succeeds or fails; only the emitted segment (delivered vs dropped) and the
propagated `io::Result` differ.  The Bool result is `true` for `Ok`. -/
def sendViaNic (c : Connection) (now : ℚ) (seq : ℕ) (limit : ℕ)
    (nicOk : Bool) : Option (Connection × Option OutSegment × Bool) :=
  match c.write now seq limit with
  | some p => some (p.1, if nicOk then some p.2 else none, nicOk)
  | none => none

/-- Modelled from the spec: the RFC 793 S3.3 acceptability table exactly as the
spec states it, row by row (`slen` = payload bytes + 1 if SYN + 1 if FIN,
`wend = rcv.nxt + rcv.wnd`), for comparison with `segment_okay` from the code. -/
def acceptable_spec (c : Connection) (seg : InSegment) : Bool :=
  let slen := seg.payload.length + (if seg.syn then 1 else 0)
              + (if seg.fin then 1 else 0)
  let wend := wadd c.recv.nxt c.recv.wnd
  if slen = 0 ∧ c.recv.wnd = 0 then decide (seg.seq = c.recv.nxt)
  else if slen = 0 ∧ c.recv.wnd ≠ 0 then
    is_between_wrapped (wsub c.recv.nxt 1) seg.seq wend
  else if slen ≠ 0 ∧ c.recv.wnd = 0 then false
  else
    is_between_wrapped (wsub c.recv.nxt 1) seg.seq wend
      || is_between_wrapped (wsub c.recv.nxt 1) (wadd seg.seq (slen - 1)) wend

/-- A peer SYN (`seq = 99`, window 1024) starting the demo connection. -/
def synSeg99 : InSegment :=
  { seq := 99, ack := false, ackn := 0, syn := true, fin := false,
    wnd := 1024, payload := [] }

/-- The handshake ACK completing the passive open of the demo connection. -/
def ackSeg1 : InSegment :=
  { seq := 100, ack := true, ackn := 1, syn := false, fin := false,
    wnd := 1024, payload := [] }

/-- A peer FIN+ACK arriving in Estab in the demo connection. -/
def finAckSeg : InSegment :=
  { seq := 100, ack := true, ackn := 1, syn := false, fin := true,
    wnd := 1024, payload := [] }

/-- A second, in-window peer FIN+ACK (`seq` one past the first FIN). -/
def finAckSeg2 : InSegment :=
  { seq := 101, ack := true, ackn := 1, syn := false, fin := true,
    wnd := 1024, payload := [] }

/-- The connection produced by `Connection::accept` on `synSeg99` at t = 0. -/
def demoAccepted : Option (Connection × OutSegment) :=
  Connection.accept 0 synSeg99

/-- Run the demo connection through the handshake ACK and a peer FIN+ACK. -/
def demoAfterFin : Option (Connection × List OutSegment) :=
  demoAccepted.bind (fun p => p.1.run [.packet 1 ackSeg1, .packet 2 finAckSeg])

/-- A partial ACK (`ackn = 3`) for the closed-at demo trace. -/
def ackSeg3 : InSegment :=
  { seq := 100, ack := true, ackn := 3, syn := false, fin := false,
    wnd := 1024, payload := [] }

/-- The closed-at demo trace: enqueue five application bytes while the SYN is
still unacknowledged, close, let a tick latch the FIN and set `closed_at`,
take a partial ACK while `snd.una = iss`, a quiet tick, then a tick late
enough to enter the retransmit branch. -/
def c6ops : List Op :=
  [.enqueue [1, 2, 3, 4, 5], .close, .tick (1/2), .packet 1 ackSeg3,
   .tick 2, .tick 200]

/-- `closed_at` of the demo connection after the first `k` operations of
`c6ops`. -/
def c6closedAt (k : ℕ) : Option (Option ℕ) :=
  (demoAccepted.bind (fun p => p.1.run (c6ops.take k))).map
    (fun p => p.1.closed_at)

/-- An established demo connection with exactly one unacked byte whose segment
was sent at t = 0, and `srtt` still at its 60 s initial value. -/
def demoC2 : Connection :=
  { state := .Estab
    send := { iss := 0, una := 1, nxt := 2, wnd := 1024, up := false,
              wl1 := 0, wl2 := 0 }
    recv := { irs := 99, nxt := 100, wnd := 1024, up := false }
    tcp := { syn := false, ack := true, fin := false, rst := false,
             sequence_number := 1, acknowledgment_number := 100 }
    timers := { send_times := [(1, 0)], srtt := 60 }
    incoming := [], unacked := [65], closed := false, closed_at := none }

/-- A demo connection that has reached State::Closed (its FIN at 6 was the
last thing acknowledged). -/
def cClosedDemo : Connection :=
  { state := .Closed
    send := { iss := 0, una := 7, nxt := 7, wnd := 1024, up := false,
              wl1 := 0, wl2 := 0 }
    recv := { irs := 99, nxt := 102, wnd := 1024, up := false }
    tcp := { syn := false, ack := true, fin := false, rst := false,
             sequence_number := 7, acknowledgment_number := 102 }
    timers := { send_times := [(6, 3)], srtt := 60 }
    incoming := [], unacked := [], closed := true, closed_at := some 6 }

/-- A one-byte segment far outside the receive window of `cClosedDemo`. -/
def badSeg : InSegment :=
  { seq := 5000, ack := true, ackn := 7, syn := false, fin := false,
    wnd := 1024, payload := [1] }

/-- The connection record `Connection::accept` builds just before its `write`
call: SYN and ACK latched, nothing sent yet. -/
def cPreWrite : Connection :=
  { state := .SynRcvd
    send := { iss := 0, una := 0, nxt := 0, wnd := 1024, up := false,
              wl1 := 0, wl2 := 0 }
    recv := { irs := 99, nxt := 100, wnd := 1024, up := false }
    tcp := { syn := true, ack := true, fin := false, rst := false,
             sequence_number := 0, acknowledgment_number := 0 }
    timers := { send_times := [], srtt := 60 }
    incoming := [], unacked := [], closed := false, closed_at := none }

/-! ## Helper lemmas -/

theorem stInsert_lookup (m : List (ℕ × ℚ)) (k : ℕ) (v : ℚ) :
    stLookup (stInsert m k v) k = some v := by
  induction m with
  | nil => simp [stInsert, stLookup]
  | cons a rest ih =>
    obtain ⟨k1, v1⟩ := a
    by_cases h1 : k < k1
    · simp [stInsert, h1, stLookup]
    · by_cases h2 : k = k1
      · simp [stInsert, h1, h2, stLookup]
      · simp [stInsert, h1, h2, stLookup, ih]

theorem write_frame (c : Connection) (now : ℚ) (seq limit : ℕ)
    (c2 : Connection) (o : OutSegment)
    (h : c.write now seq limit = some (c2, o)) :
    c2.state = c.state ∧ c2.recv = c.recv ∧ c2.send.una = c.send.una ∧
    c2.send.wnd = c.send.wnd ∧ c2.send.iss = c.send.iss ∧
    c2.unacked = c.unacked ∧ c2.incoming = c.incoming ∧
    c2.closed = c.closed ∧ c2.closed_at = c.closed_at ∧
    c2.tcp.syn = false ∧ c2.tcp.fin = false ∧ c2.tcp.ack = c.tcp.ack ∧
    c2.timers.send_times = stInsert c.timers.send_times seq now ∧
    c2.timers.srtt = c.timers.srtt ∧
    o.seq = seq ∧ o.ackn = c.recv.nxt ∧ o.ack = c.tcp.ack ∧
    o.syn = c.tcp.syn ∧ o.fin = c.tcp.fin := by
  simp only [Connection.write] at h
  split at h
  · simp only [Option.some.injEq, Prod.mk.injEq] at h
    obtain ⟨h1, h2⟩ := h
    subst h1
    subst h2
    and_intros <;> rfl
  · exact Option.noConfusion h

theorem write_payload_zero (c : Connection) (now : ℚ) (seq : ℕ)
    (c2 : Connection) (o : OutSegment)
    (h : c.write now seq 0 = some (c2, o)) : o.payload = [] := by
  simp only [Connection.write] at h
  split at h
  · simp only [Option.some.injEq, Prod.mk.injEq] at h
    rw [← h.2]
    rcases hca : c.closed_at with _ | ca
    · simp [hca]
    · simp only [hca]
      split <;> simp
  · exact Option.noConfusion h

theorem write_isSome (c : Connection) (now : ℚ) (seq limit : ℕ)
    (h : wsub seq c.send.una ≤ c.unacked.length ∨
      (∃ ca, c.closed_at = some ca ∧ seq = wadd ca 1)) :
    (c.write now seq limit).isSome := by
  simp only [Connection.write]
  rcases hca : c.closed_at with _ | ca
  · rcases h with h | ⟨ca, hc2, he2⟩
    · simp [h]
    · rw [hca] at hc2
      exact Option.noConfusion hc2
  · by_cases he : seq = wadd ca 1
    · simp [he]
    · rcases h with h | ⟨ca2, hc2, he2⟩
      · simp [he, h]
      · rw [hca] at hc2
        injection hc2 with hc3
        subst hc3
        exact absurd he2 he

theorem write_none (c : Connection) (now : ℚ) (seq limit : ℕ)
    (h1 : c.unacked.length < wsub seq c.send.una)
    (h2 : ∀ ca, c.closed_at = some ca → seq ≠ wadd ca 1) :
    c.write now seq limit = none := by
  simp only [Connection.write]
  rcases hca : c.closed_at with _ | ca
  · simp [Nat.not_le.mpr h1]
  · simp [h2 ca hca, Nat.not_le.mpr h1]

/-! ## The claims -/

/-- C9 counterexample: at `a = 0`, `b = 2^31` (circular distance exactly
`2^31`) both `wrapping_lt(a, b)` and `wrapping_lt(b, a)` are false although
`a ≠ b`, so the claimed trichotomy equivalence fails at this input. -/
theorem c9_trichotomy_fails_at_half :
    ¬(wrapping_lt 0 H32 = true ↔
      (wrapping_lt H32 0 = false ∧ (0 : ℕ) ≠ H32)) := by decide

theorem wsub_cases (a b : ℕ) (ha : a < M32) (hb : b < M32) :
    wsub a b = if b ≤ a then a - b else a + M32 - b := by
  have hm : M32 = 4294967296 := rfl
  unfold wsub
  rw [Nat.mod_eq_of_lt ha, Nat.mod_eq_of_lt hb]
  split
  · have h1 : a + M32 - b = (a - b) + M32 := by omega
    rw [h1, Nat.add_mod_right, Nat.mod_eq_of_lt (by omega)]
  · exact Nat.mod_eq_of_lt (by omega)

/-- C9 (amended): for 32-bit values whose circular distance
`(a − b) mod 2^32` is not exactly `2^31`, `wrapping_lt` satisfies the claimed
trichotomy `wrapping_lt(a, b) ⇔ ¬wrapping_lt(b, a) ∧ a ≠ b`; at distance
exactly `2^31` both directions are false though `a ≠ b`. -/
theorem c9_wrapping_lt_trichotomy (a b : ℕ) (ha : a < M32) (hb : b < M32)
    (hd : wsub a b ≠ H32) :
    wrapping_lt a b = true ↔ (wrapping_lt b a = false ∧ a ≠ b) := by
  have e1 := wsub_cases a b ha hb
  have e2 := wsub_cases b a hb ha
  unfold wrapping_lt
  rw [e1] at hd
  rw [e1, e2]
  simp only [decide_eq_true_eq, decide_eq_false_iff_not]
  simp only [M32, H32] at *
  split_ifs at hd ⊢ <;> omega

theorem c9_wrapping_lt_trichotomy_witness :
    wrapping_lt 5 3 = true ↔ (wrapping_lt 3 5 = false ∧ (5 : ℕ) ≠ 3) :=
  c9_wrapping_lt_trichotomy 5 3 (by decide) (by decide) (by decide)

/-- C4: the active-open constructor `Connection::connect` emits a SYN without
ACK as the claim states, but the connection it returns is in state SynRcvd,
not SynSent (the `State::SynSent` variant is never used by the code). -/
theorem c4_connect_starts_synrcvd :
    (Connection.connect 0 synSeg99).map
        (fun p => (p.1.state, p.2.syn, p.2.ack))
      = some (State.SynRcvd, true, false) ∧
    State.SynRcvd ≠ State.SynSent := by
  exact ⟨rfl, by decide⟩

/-- C7: in the reachable state right after `Connection::accept` (SynRcvd, the
SYN virtual byte in flight, `unacked` empty), `|unacked| = 0` is strictly less
than the effective in-flight count `nunacked = 1`, and `on_tick`'s
`unacked.len() as u32 - nunacked_data` underflows (modelled as `none`), so the
claimed invariant `|unacked| ≥ nunacked` fails exactly in the SynRcvd case the
claim includes. -/
theorem c7_tick_underflow_in_synrcvd :
    demoAccepted.map (fun p =>
      (p.1.state, p.1.unacked.length,
       wsub (p.1.closed_at.getD p.1.send.nxt) p.1.send.una,
       p.1.on_tick 1))
    = some (State.SynRcvd, 0, 1, none) := rfl

/-- C3: after the demo handshake the connection is in Estab; the acceptable
peer FIN+ACK `finAckSeg` then moves it to TimeWait — not to CloseWait as the
claim (and RFC 793's passive close) requires. -/
theorem c3_estab_fin_enters_timewait :
    (demoAccepted.bind (fun p => p.1.run [.packet 1 ackSeg1])).map
        (fun p => (p.1.state, segment_okay p.1 finAckSeg,
          (p.1.on_packet 2 finAckSeg).map (fun q => q.1.state)))
      = some (State.Estab, true, some State.TimeWait) ∧
    State.TimeWait ≠ State.CloseWait := by
  exact ⟨rfl, by decide⟩

/-- C10: the retransmitted-FIN scenario of the claim: the demo connection has
reached TimeWait, a further acceptable in-window FIN+ACK (`finAckSeg2`)
arrives, and `on_packet` hits `unimplemented!()` (modelled `none`) instead of
returning, so a remote peer can crash the endpoint. -/
theorem c10_unexpected_fin_panics :
    finAckSeg2.ack = true ∧ finAckSeg2.fin = true ∧
    demoAfterFin.map (fun p =>
        (p.1.state, segment_okay p.1 finAckSeg2, p.1.on_packet 3 finAckSeg2))
      = some (State.TimeWait, true, none) := by
  exact ⟨rfl, rfl, rfl⟩

/-- C2: `on_tick` retransmits only when the wait exceeds both the 1 s floor
and `1.5·srtt` (the gate `shouldRetransmit` is exactly that conjunction), and
in the concrete scenario of the claim — one unacked byte sent at t = 0,
`srtt = 60 s`, tick at t = 1.1 s — the tick emits nothing and leaves the
connection unchanged. -/
theorem c2_retransmit_gate :
    (∀ (c : Connection) (now : ℚ),
      shouldRetransmit c now = true ↔
        ∃ w, waitedFor c now = some w ∧ 1 < w ∧ 3/2 * c.timers.srtt < w) ∧
    (1 : ℚ) < 11/10 ∧ demoC2.timers.srtt = 60 ∧
    shouldRetransmit demoC2 (11/10) = false ∧
    demoC2.on_tick (11/10) = some (demoC2, []) := by
  refine ⟨?_, by norm_num, rfl, by with_unfolding_all rfl,
    by with_unfolding_all rfl⟩
  intro c now
  unfold shouldRetransmit
  cases h : waitedFor c now with
  | none => simp
  | some w => simp [gt_iff_lt]

theorem okay_eq_spec (c : Connection) (seg : InSegment) :
    segment_okay c seg = acceptable_spec c seg := by
  unfold segment_okay acceptable_spec
  by_cases hf : seg.fin <;> by_cases hs2 : seg.syn <;>
    by_cases hw : c.recv.wnd = 0 <;>
      simp [hf, hs2, hw, Nat.add_eq_zero] <;>
        by_cases hn : seg.payload = [] <;> simp [hn, List.length_eq_zero]

/-- C1 counterexample: in the reachable state straight out of
`Connection::accept` (SynRcvd, the SYN virtual byte in flight, `unacked`
empty, so the bare-ACK write's offset `wsub(snd.nxt, snd.una) = 1` exceeds
`|unacked| = 0`), a segment that fails the acceptability check does not
elicit a bare ACK: the rejection path panics inside `write`'s slice indexing
(modelled `none`), so the claim's unconditional bare-ACK-on-rejection is
false at this input. -/
theorem c1_reject_panics_after_accept :
    demoAccepted.map (fun p =>
      (segment_okay p.1 badSeg, wsub p.1.send.nxt p.1.send.una,
       p.1.unacked.length, p.1.on_packet 1 badSeg))
    = some (false, 1, 0, none) := rfl

/-- C1 (amended): the code's segment-acceptability check agrees with the
RFC 793 S3.3 four-case table of the spec on every connection state and
segment.  On rejection, provided the bare-ACK write's payload offset
`wsub(snd.nxt, snd.una)` does not exceed `|unacked|` (or the `closed_at + 1`
override applies), `on_packet` emits exactly one zero-payload segment with
`seq = snd.nxt`, `ack = rcv.nxt` and returns with state, receive space,
`snd.una`, queues, `closed` and `closed_at` unchanged; when the offset does
exceed `|unacked|` and no override applies (e.g. fresh out of `accept` with
the SYN still in flight), the rejection path instead panics in `write`'s
slice indexing and nothing is emitted. -/
theorem c1_acceptability (c : Connection) (seg : InSegment) (now : ℚ) :
    segment_okay c seg = acceptable_spec c seg ∧
    (segment_okay c seg = false →
      (wsub c.send.nxt c.send.una ≤ c.unacked.length ∨
        (∃ ca, c.closed_at = some ca ∧ c.send.nxt = wadd ca 1)) →
      ∃ c2 o, c.on_packet now seg = some (c2, [o]) ∧
        o.seq = c.send.nxt ∧ o.ackn = c.recv.nxt ∧ o.payload = [] ∧
        c2.state = c.state ∧ c2.recv = c.recv ∧ c2.send.una = c.send.una ∧
        c2.unacked = c.unacked ∧ c2.incoming = c.incoming ∧
        c2.closed = c.closed ∧ c2.closed_at = c.closed_at) ∧
    (segment_okay c seg = false →
      c.unacked.length < wsub c.send.nxt c.send.una →
      (∀ ca, c.closed_at = some ca → c.send.nxt ≠ wadd ca 1) →
      c.on_packet now seg = none) := by
  refine ⟨okay_eq_spec c seg, ?_, ?_⟩
  · intro hok hoff
    have hs := write_isSome c now c.send.nxt 0 hoff
    obtain ⟨p, hw⟩ := Option.isSome_iff_exists.mp hs
    obtain ⟨c2, o⟩ := p
    obtain ⟨f1, f2, f3, f4, f5, f6, f7, f8, f9, f10, f11, f12, f13, f14,
      f15, f16, f17, f18, f19⟩ := write_frame c now c.send.nxt 0 c2 o hw
    have hz := write_payload_zero c now c.send.nxt c2 o hw
    have hp : c.on_packet now seg = some (c2, [o]) := by
      simp [Connection.on_packet, hok, hw]
    exact ⟨c2, o, hp, f15, f16, hz, f1, f2, f3, f6, f7, f8, f9⟩
  · intro hok h1 h2
    have hw := write_none c now c.send.nxt 0 h1 h2
    simp [Connection.on_packet, hok, hw]

theorem synRcvdAckStep_closed (c : Connection) (a : ℕ)
    (hc : c.state = State.Closed) : synRcvdAckStep c a = c := by
  unfold synRcvdAckStep
  split <;> first | rfl | (rename_i hs; rw [hc] at hs; simp at hs)

theorem estabAckStep_closed (c : Connection) (now : ℚ) (a : ℕ)
    (hc : c.state = State.Closed) : estabAckStep c now a = c := by
  unfold estabAckStep
  split <;> first | rfl | (rename_i hs; rw [hc] at hs; simp at hs)

theorem finAckStep_closed (c : Connection)
    (hc : c.state = State.Closed) : finAckStep c = c := by
  unfold finAckStep
  split <;> first | rfl | (rename_i hs hs2; rw [hc] at hs; simp at hs)

theorem dataStep_closed (c : Connection) (now : ℚ) (seg : InSegment)
    (hc : c.state = State.Closed) : dataStep c now seg = some (c, []) := by
  unfold dataStep
  split
  · rfl
  · split <;> first | rfl | (rename_i hs; rw [hc] at hs; simp at hs)

theorem finStep_closed_fin (c : Connection) (now : ℚ)
    (hc : c.state = State.Closed) : finStep c now true = none := by
  unfold finStep
  split
  · rename_i hs
    simp at hs
  · split <;> first | rfl | (rename_i hs; rw [hc] at hs; simp at hs)

theorem finStep_nofin (c : Connection) (now : ℚ) :
    finStep c now false = some (c, []) := rfl

/-- C5 counterexample: a connection in state Closed that receives a segment
failing the acceptability check still hands one bare-ACK segment to the NIC,
contradicting the claim that nothing is emitted after Closed even for
unacceptable segments. -/
theorem c5_closed_emits_on_unacceptable :
    cClosedDemo.state = State.Closed ∧
    segment_okay cClosedDemo badSeg = false ∧
    (cClosedDemo.on_packet 5 badSeg).map (fun p => p.2.length) = some 1 :=
  ⟨rfl, rfl, rfl⟩

/-- C5 (amended): once in state Closed, `on_tick` emits nothing and leaves
the connection unchanged, and `on_packet` hands nothing to the NIC for
acceptable segments (an acceptable FIN panics before emitting) — but a
segment that fails the acceptability check still elicits exactly one bare
ACK. -/
theorem c5_closed_silent (c : Connection) (now : ℚ) (seg : InSegment)
    (hc : c.state = State.Closed) :
    c.on_tick now = some (c, []) ∧
    (segment_okay c seg = true →
      ∀ c2 outs, c.on_packet now seg = some (c2, outs) → outs = []) ∧
    (segment_okay c seg = false →
      ∀ c2 outs, c.on_packet now seg = some (c2, outs) → outs.length = 1) := by
  refine ⟨?_, ?_, ?_⟩
  · unfold Connection.on_tick
    rw [hc]
  · intro hok c2 outs hpk
    unfold Connection.on_packet at hpk
    rw [hok] at hpk
    simp only [Bool.not_true, Bool.false_eq_true, if_false] at hpk
    by_cases hack : seg.ack
    · simp only [hack, Bool.not_true, Bool.false_eq_true, if_false] at hpk
      rw [synRcvdAckStep_closed c seg.ackn hc] at hpk
      rw [estabAckStep_closed c now seg.ackn hc] at hpk
      rw [finAckStep_closed c hc] at hpk
      rw [dataStep_closed c now seg hc] at hpk
      rw [Option.some_bind] at hpk
      by_cases hfin : seg.fin
      · rw [hfin, finStep_closed_fin c now hc] at hpk
        exact Option.noConfusion hpk
      · rw [Bool.not_eq_true] at hfin
        rw [hfin, finStep_nofin c now, Option.map_some'] at hpk
        simp only [Option.some.injEq, Prod.mk.injEq, List.nil_append] at hpk
        exact hpk.2.symm
    · rw [Bool.not_eq_true] at hack
      simp only [hack, Bool.not_false, if_true] at hpk
      by_cases hsyn : seg.syn
      · simp only [hsyn, if_true] at hpk
        split at hpk
        · simp only [Option.some.injEq, Prod.mk.injEq] at hpk
          exact hpk.2.symm
        · exact Option.noConfusion hpk
      · rw [Bool.not_eq_true] at hsyn
        simp only [hsyn, Bool.false_eq_true, if_false] at hpk
        simp only [Option.some.injEq, Prod.mk.injEq] at hpk
        exact hpk.2.symm
  · intro hok c2 outs hpk
    unfold Connection.on_packet at hpk
    rw [hok] at hpk
    simp only [Bool.not_false, if_true] at hpk
    cases hw : c.write now c.send.nxt 0 with
    | none => rw [hw, Option.map_none'] at hpk; exact Option.noConfusion hpk
    | some p =>
      rw [hw, Option.map_some'] at hpk
      simp only [Option.some.injEq, Prod.mk.injEq] at hpk
      rw [← hpk.2]
      rfl

theorem c5_closed_silent_witness :
    cClosedDemo.on_tick 5 = some (cClosedDemo, []) ∧
    (segment_okay cClosedDemo badSeg = true →
      ∀ c2 outs, cClosedDemo.on_packet 5 badSeg = some (c2, outs) →
        outs = []) ∧
    (segment_okay cClosedDemo badSeg = false →
      ∀ c2 outs, cClosedDemo.on_packet 5 badSeg = some (c2, outs) →
        outs.length = 1) :=
  c5_closed_silent cClosedDemo 5 badSeg rfl

theorem synRcvdAckStep_closed_at (c : Connection) (a : ℕ) :
    (synRcvdAckStep c a).closed_at = c.closed_at := by
  unfold synRcvdAckStep
  split <;> first | rfl | (split <;> rfl)

theorem estabAckStep_closed_at (c : Connection) (now : ℚ) (a : ℕ) :
    (estabAckStep c now a).closed_at = c.closed_at := by
  unfold estabAckStep
  split <;> first | rfl | (split <;> first | rfl | (split <;> rfl))

theorem finAckStep_closed_at (c : Connection) :
    (finAckStep c).closed_at = c.closed_at := by
  unfold finAckStep
  split <;> first | rfl | (split <;> rfl)

theorem dataStep_closed_at (c : Connection) (now : ℚ) (seg : InSegment)
    (c2 : Connection) (outs : List OutSegment)
    (h : dataStep c now seg = some (c2, outs)) :
    c2.closed_at = c.closed_at := by
  simp only [dataStep] at h
  split at h
  · simp only [Option.some.injEq, Prod.mk.injEq] at h
    rw [← h.1]
  · split at h
    · split at h
      · exact Option.noConfusion h
      · rw [Option.map_eq_some'] at h
        obtain ⟨p, hw, he⟩ := h
        simp only [Prod.mk.injEq] at he
        obtain ⟨he1, he2⟩ := he
        subst he1
        exact (write_frame _ now _ 0 p.1 p.2 hw).2.2.2.2.2.2.2.2.1
    · split at h
      · exact Option.noConfusion h
      · rw [Option.map_eq_some'] at h
        obtain ⟨p, hw, he⟩ := h
        simp only [Prod.mk.injEq] at he
        obtain ⟨he1, he2⟩ := he
        subst he1
        exact (write_frame _ now _ 0 p.1 p.2 hw).2.2.2.2.2.2.2.2.1
    · split at h
      · exact Option.noConfusion h
      · rw [Option.map_eq_some'] at h
        obtain ⟨p, hw, he⟩ := h
        simp only [Prod.mk.injEq] at he
        obtain ⟨he1, he2⟩ := he
        subst he1
        exact (write_frame _ now _ 0 p.1 p.2 hw).2.2.2.2.2.2.2.2.1
    · simp only [Option.some.injEq, Prod.mk.injEq] at h
      rw [← h.1]

theorem finStep_closed_at (c : Connection) (now : ℚ) (b : Bool)
    (c2 : Connection) (outs : List OutSegment)
    (h : finStep c now b = some (c2, outs)) :
    c2.closed_at = c.closed_at := by
  simp only [finStep] at h
  split at h
  · simp only [Option.some.injEq, Prod.mk.injEq] at h
    rw [← h.1]
  · split at h
    · rw [Option.map_eq_some'] at h
      obtain ⟨p, hw, he⟩ := h
      simp only [Prod.mk.injEq] at he
      obtain ⟨he1, he2⟩ := he
      subst he1
      exact (write_frame _ now _ 0 p.1 p.2 hw).2.2.2.2.2.2.2.2.1
    · rw [Option.map_eq_some'] at h
      obtain ⟨p, hw, he⟩ := h
      simp only [Prod.mk.injEq] at he
      obtain ⟨he1, he2⟩ := he
      subst he1
      exact (write_frame _ now _ 0 p.1 p.2 hw).2.2.2.2.2.2.2.2.1
    · rw [Option.map_eq_some'] at h
      obtain ⟨p, hw, he⟩ := h
      simp only [Prod.mk.injEq] at he
      obtain ⟨he1, he2⟩ := he
      subst he1
      exact (write_frame _ now _ 0 p.1 p.2 hw).2.2.2.2.2.2.2.2.1
    · exact Option.noConfusion h

theorem on_packet_closed_at (c : Connection) (now : ℚ) (seg : InSegment)
    (c2 : Connection) (outs : List OutSegment)
    (h : c.on_packet now seg = some (c2, outs)) :
    c2.closed_at = c.closed_at := by
  unfold Connection.on_packet at h
  split at h
  · rw [Option.map_eq_some'] at h
    obtain ⟨p, hw, he⟩ := h
    simp only [Prod.mk.injEq] at he
    obtain ⟨he1, he2⟩ := he
    subst he1
    exact (write_frame _ now _ 0 p.1 p.2 hw).2.2.2.2.2.2.2.2.1
  · split at h
    · split at h
      · split at h
        · simp only [Option.some.injEq, Prod.mk.injEq] at h
          rw [← h.1]
        · exact Option.noConfusion h
      · simp only [Option.some.injEq, Prod.mk.injEq] at h
        rw [← h.1]
    · rw [Option.bind_eq_some] at h
      obtain ⟨q, hq, h2⟩ := h
      rw [Option.map_eq_some'] at h2
      obtain ⟨r, hr, he⟩ := h2
      simp only [Prod.mk.injEq] at he
      obtain ⟨he1, he2⟩ := he
      subst he1
      have e1 := finStep_closed_at q.1 now seg.fin r.1 r.2 (by rw [hr])
      have e2 := dataStep_closed_at _ now seg q.1 q.2 (by rw [hq])
      rw [e1, e2, finAckStep_closed_at, estabAckStep_closed_at,
        synRcvdAckStep_closed_at]

theorem retransmitStep_closed_at (c : Connection) (now : ℚ)
    (c2 : Connection) (outs : List OutSegment)
    (h : retransmitStep c now = some (c2, outs)) :
    c2.closed_at = c.closed_at ∨
    c2.closed_at = some (wadd c.send.una c.unacked.length) := by
  simp only [retransmitStep] at h
  split at h
  · simp only [Option.some.injEq, Prod.mk.injEq] at h
    rw [← h.1]
    split
    · right; rfl
    · left; rfl
  · rw [Option.map_eq_some'] at h
    obtain ⟨p, hw, he⟩ := h
    simp only [Prod.mk.injEq] at he
    obtain ⟨he1, he2⟩ := he
    subst he1
    have f9 := (write_frame _ now _ _ p.1 p.2 hw).2.2.2.2.2.2.2.2.1
    rw [f9]
    split
    · right; rfl
    · left; rfl

theorem transmitStep_closed_at (c : Connection) (now : ℚ) (na ns : ℕ)
    (c2 : Connection) (outs : List OutSegment)
    (h : transmitStep c now na ns = some (c2, outs)) :
    c2.closed_at = c.closed_at ∨
    c2.closed_at = some (wadd c.send.una c.unacked.length) := by
  simp only [transmitStep] at h
  split at h
  · simp only [Option.some.injEq, Prod.mk.injEq] at h
    rw [← h.1]
    left; rfl
  · split at h
    · exact Option.noConfusion h
    · split at h
      · simp only [Option.some.injEq, Prod.mk.injEq] at h
        rw [← h.1]
        left; rfl
      · split at h
        · simp only [Option.some.injEq, Prod.mk.injEq] at h
          rw [← h.1]
          split
          · right; rfl
          · left; rfl
        · rw [Option.map_eq_some'] at h
          obtain ⟨p, hw, he⟩ := h
          simp only [Prod.mk.injEq] at he
          obtain ⟨he1, he2⟩ := he
          subst he1
          have f9 := (write_frame _ now _ _ p.1 p.2 hw).2.2.2.2.2.2.2.2.1
          rw [f9]
          split
          · right; rfl
          · left; rfl

theorem on_tick_closed_at (c : Connection) (now : ℚ)
    (c2 : Connection) (outs : List OutSegment)
    (h : c.on_tick now = some (c2, outs)) :
    c2.closed_at = c.closed_at ∨
    c2.closed_at = some (wadd c.send.una c.unacked.length) := by
  unfold Connection.on_tick at h
  split at h <;>
    first
      | (simp only [Option.some.injEq, Prod.mk.injEq] at h
         left
         rw [← h.1])
      | (split at h
         · exact Option.noConfusion h
         · split at h
           · exact retransmitStep_closed_at c now c2 outs h
           · exact transmitStep_closed_at c now _ _ c2 outs h)

/-- C6 counterexample: in the closed-at demo trace, the tick at t = 1/2 first
sets `closed_at = 5` (one application byte queue of five, FIN after byte 5);
after a partial ACK taken while `snd.una = iss` and an empty keep-alive write,
the retransmission tick at t = 200 rewrites `closed_at` to 6 — the value
changed after first being set. -/
theorem c6_closed_at_rewritten :
    c6closedAt 2 = some none ∧ c6closedAt 3 = some (some 5) ∧
    c6closedAt 5 = some (some 5) ∧ c6closedAt 6 = some (some 6) ∧
    (5 : ℕ) ≠ 6 := by
  refine ⟨?_, ?_, ?_, ?_, by decide⟩ <;> with_unfolding_all rfl

/-- C6 (amended): `closed_at` is never reset to None, and `on_packet` and
`close` never change it; but the FIN-latching assignments of `on_tick` (the
retransmit branch lacks the is-none guard) may re-assign it to
`snd.una + |unacked|`, which can differ from the stored value after a partial
ACK processed while `snd.una = iss`. -/
theorem c6_closed_at_updates (c : Connection) (now : ℚ) (seg : InSegment) :
    (∀ c2 outs, c.on_tick now = some (c2, outs) →
      (c2.closed_at = c.closed_at ∨
        c2.closed_at = some (wadd c.send.una c.unacked.length)) ∧
      (c.closed_at.isSome → c2.closed_at.isSome)) ∧
    (∀ c2 outs, c.on_packet now seg = some (c2, outs) →
      c2.closed_at = c.closed_at) ∧
    (c.close).1.closed_at = c.closed_at := by
  refine ⟨?_, ?_, ?_⟩
  · intro c2 outs h
    have hd := on_tick_closed_at c now c2 outs h
    refine ⟨hd, ?_⟩
    intro hsome
    rcases hd with hl | hr
    · rw [hl]
      exact hsome
    · rw [hr]
      rfl
  · intro c2 outs h
    exact on_packet_closed_at c now seg c2 outs h
  · simp only [Connection.close]
    split <;> rfl

/-- The connection `cPreWrite.write 0 0 0` produces: the SYN virtual byte
consumed (`snd.nxt = 1`), SYN/ACK flags resolved (SYN cleared), and the send
stamped in `send_times` — all before `nic.send` runs. -/
def cPostWrite : Connection :=
  { state := .SynRcvd
    send := { iss := 0, una := 0, nxt := 1, wnd := 1024, up := false,
              wl1 := 0, wl2 := 0 }
    recv := { irs := 99, nxt := 100, wnd := 1024, up := false }
    tcp := { syn := false, ack := true, fin := false, rst := false,
             sequence_number := 0, acknowledgment_number := 100 }
    timers := { send_times := [(0, 0)], srtt := 60 }
    incoming := [], unacked := [], closed := false, closed_at := none }

/-- C8 counterexample: on a failed NIC transmit (`nicOk = false`) the error is
surfaced, yet `snd.nxt`, the latched SYN flag and the `send_times` map have
all changed from their pre-invocation values, because the source mutates them
before calling `nic.send`. -/
theorem c8_failed_send_mutates :
    sendViaNic cPreWrite 0 0 0 false = some (cPostWrite, none, false) ∧
    cPostWrite.send.nxt ≠ cPreWrite.send.nxt ∧
    cPostWrite.tcp.syn ≠ cPreWrite.tcp.syn ∧
    cPostWrite.timers.send_times ≠ cPreWrite.timers.send_times := by
  refine ⟨rfl, by decide, by decide, ?_⟩
  intro hcontra
  exact List.noConfusion hcontra

/-- C8 (amended): when the NIC transmit fails the error is surfaced to the
caller, and the state-machine fields (state, `snd.una`, the receive space,
both queues, `closed`, `closed_at`) are untouched; but the bookkeeping `write`
performs before `nic.send` is not rolled back — `snd.nxt` reflects the
attempted segment, the latched SYN/FIN flags are cleared and `send_times[seq]`
is stamped — and it is that stamp that lets a subsequent tick retransmit. -/
theorem c8_failed_send_state (c : Connection) (now : ℚ) (seq limit : ℕ)
    (c2 : Connection) (oo : Option OutSegment) (ok : Bool)
    (h : sendViaNic c now seq limit false = some (c2, oo, ok)) :
    ok = false ∧ oo = none ∧
    c2.state = c.state ∧ c2.send.una = c.send.una ∧ c2.recv = c.recv ∧
    c2.unacked = c.unacked ∧ c2.incoming = c.incoming ∧
    c2.closed = c.closed ∧ c2.closed_at = c.closed_at ∧
    c2.tcp.syn = false ∧ c2.tcp.fin = false ∧
    stLookup c2.timers.send_times seq = some now := by
  unfold sendViaNic at h
  cases hw : c.write now seq limit with
  | none =>
    rw [hw] at h
    exact Option.noConfusion h
  | some p =>
    rw [hw] at h
    simp only [Bool.false_eq_true, if_false, Option.some.injEq,
      Prod.mk.injEq] at h
    obtain ⟨h1, h2, h3⟩ := h
    subst h1
    obtain ⟨f1, f2, f3, f4, f5, f6, f7, f8, f9, f10, f11, f12, f13, f14,
      f15, f16, f17, f18, f19⟩ := write_frame c now seq limit p.1 p.2 hw
    refine ⟨h3.symm, h2.symm, f1, f3, f2, f6, f7, f8, f9, f10, f11, ?_⟩
    rw [f13]
    exact stInsert_lookup _ _ _

theorem c8_failed_send_state_witness :
    false = false ∧ (none : Option OutSegment) = none ∧
    cPostWrite.state = cPreWrite.state ∧
    cPostWrite.send.una = cPreWrite.send.una ∧
    cPostWrite.recv = cPreWrite.recv ∧
    cPostWrite.unacked = cPreWrite.unacked ∧
    cPostWrite.incoming = cPreWrite.incoming ∧
    cPostWrite.closed = cPreWrite.closed ∧
    cPostWrite.closed_at = cPreWrite.closed_at ∧
    cPostWrite.tcp.syn = false ∧ cPostWrite.tcp.fin = false ∧
    stLookup cPostWrite.timers.send_times 0 = some 0 :=
  c8_failed_send_state cPreWrite 0 0 0 cPostWrite none false rfl

end TcpRust
